import Mathlib

/-!
Verification of the content-workflow orchestrator (main.py and the agent
helper modules). Scores that are Python floats are embedded as rationals;
string literals from the Python source are reproduced with plain ASCII
punctuation (contracted forms are spelled out), which no theorem depends on.
Stateful orchestration is embedded as explicit state passing; an agent call
that raises is an Except.error, a call returning None is an Except.ok none.
-/

namespace ContentWorkflow

/-! ## Data model (dataclasses from the agent modules) -/

/-- ContentEvaluation dataclass from ai_agents/evaluator_agent.py. -/
structure ContentEvaluation where
  authenticity_score : ℚ
  quality_score : ℚ
  completeness_score : ℚ
  depth_score : ℚ
  overall_score : ℚ
  approved : Bool
  needs_rewrite : Bool
  strengths : List String
  weaknesses : List String
  specific_feedback : String
deriving Repr, DecidableEq

/-- The structured research output consumed by run_workflow (the parsed JSON
dict produced by the research agent, with the keys the workflow reads). -/
structure ResearchData where
  topic : String
  facts_and_stats : List String
  controversies_and_debates : List String
  trending_angles : List String
  content_gaps : List String
  expert_quotes : List String
  research_summary : String
  sources : List String
deriving Repr, DecidableEq

/-- SocialMediaContent dataclass from ai_agents/social_media_agent.py. -/
structure SocialMediaContent where
  tiktok_hook : String
  tiktok_script : String
  tiktok_cta : String
  linkedin_hook : String
  linkedin_body : String
  linkedin_cta : String
  linkedin_hashtags : List String
  instagram_hook : String
  instagram_body : String
  instagram_cta : String
  instagram_hashtags : List String
deriving Repr, DecidableEq

/-- StoredPost dataclass from ai_agents/storage_agent.py. -/
structure StoredPost where
  platform : String
  title : String
  notion_link : String
deriving Repr, DecidableEq

/-- StorageResult dataclass from ai_agents/storage_agent.py. -/
structure StorageResult where
  master_content_link : String
  stored_posts : List StoredPost
  success : Bool
  message : String
deriving Repr, DecidableEq

/-- ScheduledPost dataclass from ai_agents/scheduler_agent.py. -/
structure ScheduledPost where
  platform : String
  title : String
  scheduled_time : String
  calendar_link : String
deriving Repr, DecidableEq

/-- SchedulingResult dataclass from ai_agents/scheduler_agent.py. -/
structure SchedulingResult where
  scheduled_posts : List ScheduledPost
  success : Bool
  message : String
deriving Repr, DecidableEq

/-! ## Stage Invoker: run_with_retry (main.py lines 23-43)

One attempt of the underlying call (Runner.run raced against the timeout)
either times out, raises, completes with a result that is falsy or lacks a
final_output attribute, or completes with a usable payload. -/

/-- Outcome of one underlying attempt inside run_with_retry. -/
inductive AttemptResult (α : Type) where
  | timeout
  | raised
  | malformed
  | ok (payload : α)
deriving Repr, DecidableEq

/-- The two exception classes run_with_retry re-raises after the last attempt. -/
inductive RetryError where
  | timeout
  | raised
deriving Repr, DecidableEq

/-- View a failure kind as the corresponding per-attempt outcome. -/
def RetryError.toAttempt {α : Type} : RetryError → AttemptResult α
  | RetryError.timeout => AttemptResult.timeout
  | RetryError.raised => AttemptResult.raised

/-- The retry loop of run_with_retry. `rem` is the number of attempts still
allowed (the Python loop is "for attempt in range(3)" and sleeps
2 ** attempt only when attempt < 2, i.e. when more attempts remain), `i` is
the current 0-based attempt index, `wait` accumulates the backoff sleeps.
Returns the raised error after the final failing attempt, `Except.ok none`
when every attempt completed malformed (the fall-through "return None"),
and `Except.ok (some p)` on the first usable payload. -/
def retryGo {α : Type} (attempts : Nat → AttemptResult α) :
    Nat → Nat → Nat → Except RetryError (Option α) × Nat
  | 0, _, wait => (Except.ok none, wait)
  | rem + 1, i, wait =>
    match attempts i with
    | AttemptResult.ok p => (Except.ok (some p), wait)
    | AttemptResult.malformed => retryGo attempts rem (i + 1) wait
    | AttemptResult.timeout =>
        if rem = 0 then (Except.error RetryError.timeout, wait)
        else retryGo attempts rem (i + 1) (wait + 2 ^ i)
    | AttemptResult.raised =>
        if rem = 0 then (Except.error RetryError.raised, wait)
        else retryGo attempts rem (i + 1) (wait + 2 ^ i)

/-- run_with_retry from main.py: three attempts, exponential backoff
2 ^ attempt after a failed attempt that is not the last, result paired with
the total backoff wait. -/
def run_with_retry {α : Type} (attempts : Nat → AttemptResult α) :
    Except RetryError (Option α) × Nat :=
  retryGo attempts 3 0 0

/-- A simulated stage that fails (with kind `k`) on its first `n` calls and
then yields payload `p`. -/
def failThenOk {α : Type} (k : RetryError) (n : Nat) (p : α) : Nat → AttemptResult α :=
  fun i => if i < n then RetryError.toAttempt k else AttemptResult.ok p

/-- If every attempt the loop can reach fails with kind `k`, the loop raises
`k` with total accumulated wait `2 ^ i * (2 ^ rem - 1)` on top of `wait`
(no sleep after the final attempt). -/
lemma retryGo_all_fail {α : Type} (k : RetryError) (attempts : Nat → AttemptResult α) :
    ∀ rem i wait, (∀ j, j < i + (rem + 1) → attempts j = RetryError.toAttempt k) →
      retryGo attempts (rem + 1) i wait = (Except.error k, wait + 2 ^ i * (2 ^ rem - 1)) := by
  intro rem
  induction rem with
  | zero =>
    intro i wait h
    have hi : attempts i = RetryError.toAttempt k := h i (by omega)
    cases k <;> simp [retryGo, hi, RetryError.toAttempt]
  | succ rem ih =>
    intro i wait h
    have hi : attempts i = RetryError.toAttempt k := h i (by omega)
    have hstep : retryGo attempts (rem + 1 + 1) i wait
        = retryGo attempts (rem + 1) (i + 1) (wait + 2 ^ i) := by
      cases k <;> simp [retryGo, hi, RetryError.toAttempt]
    have hrec := ih (i + 1) (wait + 2 ^ i) (fun j hj => h j (by omega))
    rw [hstep, hrec]
    obtain ⟨s, hs⟩ : ∃ s, 2 ^ rem = s + 1 :=
      ⟨2 ^ rem - 1, by have := Nat.one_le_two_pow (n := rem); omega⟩
    have h1 : (2 : Nat) ^ (i + 1) = 2 ^ i * 2 := pow_succ 2 i
    have h2 : (2 : Nat) ^ (rem + 1) = 2 ^ rem * 2 := pow_succ 2 rem
    have h3 : (s + 1) * 2 - 1 = 2 * s + 1 := by omega
    rw [h1, h2, hs, h3]
    have h4 : s + 1 - 1 = s := by omega
    rw [h4]
    congr 1
    ring

/-- C4: for a stage failing its first n attempts (timeout or raised error)
and then succeeding, when n is below the attempt budget of 3 the invoker
returns the success and the total backoff wait is 1 + 2 + ... + 2 ^ (n-1)
= 2 ^ n - 1 (2 ^ (index) after the failure of 0-based attempt index);
when all 3 attempts fail, it re-raises the failure to the caller with
total wait 1 + 2 = 3, i.e. no wait after the final attempt. -/
theorem run_with_retry_backoff {α : Type} (k : RetryError) (n : Nat) (p : α) :
    (n < 3 → run_with_retry (failThenOk k n p) = (Except.ok (some p), 2 ^ n - 1)) ∧
    (3 ≤ n → run_with_retry (failThenOk k n p) = (Except.error k, 3)) := by
  constructor
  · intro h
    interval_cases n <;> cases k <;> rfl
  · intro h
    have := retryGo_all_fail k (failThenOk k n p) 2 0 0
      (fun j hj => by simp [failThenOk, if_pos (by omega : j < n)])
    simpa [run_with_retry] using this

/-- Witness for C4 at n = 2 failures then success, and at 3 straight failures. -/
theorem run_with_retry_backoff_witness :
    run_with_retry (failThenOk RetryError.timeout 2 (0 : Nat))
      = (Except.ok (some 0), 3) ∧
    run_with_retry (failThenOk RetryError.raised 3 (0 : Nat))
      = (Except.error RetryError.raised, 3) :=
  ⟨by simpa using (run_with_retry_backoff RetryError.timeout 2 (0 : Nat)).1 (by omega),
   (run_with_retry_backoff RetryError.raised 3 (0 : Nat)).2 (by omega)⟩

/-- C10: an attempt that completes but whose result is falsy or lacks a
final_output field consumes one attempt with no backoff wait before the
next attempt; three such attempts make run_with_retry return a None result
(Except.ok none) with zero wait instead of raising, unlike three
timeouts, which re-raise after the final attempt. -/
theorem run_with_retry_malformed {α : Type} :
    (∀ (attempts : Nat → AttemptResult α) (rem i wait : Nat),
        attempts i = AttemptResult.malformed →
        retryGo attempts (rem + 1) i wait = retryGo attempts rem (i + 1) wait) ∧
    run_with_retry (fun _ : Nat => (AttemptResult.malformed : AttemptResult α))
      = (Except.ok none, 0) ∧
    run_with_retry (fun _ : Nat => (AttemptResult.timeout : AttemptResult α))
      = (Except.error RetryError.timeout, 3) := by
  refine ⟨?_, rfl, rfl⟩
  intro attempts rem i wait h
  simp [retryGo, h]

/-- Witness for C10: one malformed attempt is skipped with no wait. -/
theorem run_with_retry_malformed_witness :
    retryGo (fun _ : Nat => (AttemptResult.malformed : AttemptResult Nat)) (1 + 1) 0 0
      = retryGo (fun _ : Nat => (AttemptResult.malformed : AttemptResult Nat)) 1 1 0 :=
  (run_with_retry_malformed (α := Nat)).1 (fun _ => AttemptResult.malformed) 1 0 0 rfl

/-! ## Prompt formatting helpers (writer_agent.py, evaluator_agent.py) -/

/-- Python str.split() word count: split on whitespace, drop empty pieces. -/
def pyWordCount (s : String) : Nat :=
  ((s.split (fun c => c.isWhitespace)).filter (fun w => w ≠ "")).length

/-- The chr(10).join of bullet lines used by format_research_for_master_content. -/
def bulletLines (items : List String) : String :=
  String.intercalate "\n" (items.map (fun x => "• " ++ x))

/-- format_research_for_master_content from ai_agents/writer_agent.py
(the indentation of the Python triple-quoted literal is not reproduced;
no theorem depends on this string). -/
def format_research_for_master_content (research_data : ResearchData) : String :=
  "\nCreate engaging content about: " ++ research_data.topic ++
  "\n\nHere is your research to work with:\n\nFACTS & DATA:\n" ++
  bulletLines research_data.facts_and_stats ++
  "\n\nDEBATES & TENSIONS:\n" ++
  bulletLines research_data.controversies_and_debates ++
  "\n\nWHAT IS TRENDING:\n" ++
  bulletLines research_data.trending_angles ++
  "\n\nUNIQUE ANGLES (What others are not saying):\n" ++
  bulletLines research_data.content_gaps ++
  "\n\nEXPERT VOICES:\n" ++
  bulletLines research_data.expert_quotes ++
  "\n\nContext: " ++ research_data.research_summary ++
  "\n\nRemember:\n- Write 1500-2000 words\n- Sound exactly like the creator\n" ++
  "- Make it engaging, not mechanical\n- Weave research naturally into stories\n" ++
  "- Explore those unique angles!\n\nWrite the content.\n"

/-- Leading part of the evaluator prompt built by
format_content_for_evaluation (everything before the optional previous
attempt section). -/
def evalBasePrompt (content : String) (research_data : ResearchData) : String :=
  "Evaluate this blog content and decide if it is good enough to publish.\n\n" ++
  "=== CONTENT TO EVALUATE ===\n\nWord Count: " ++ toString (pyWordCount content) ++
  "\n\nContent:\n" ++ content ++
  "\n\n=== CONTEXT ===\n\nTopic: " ++ research_data.topic ++
  "\nResearch Sources Used: " ++ toString research_data.sources.length ++ "\n"

/-- The previous-attempt section of the evaluator prompt: appended if and
only if previous_score > 0 (evaluator_agent.py lines 256-264). -/
def prevAttemptSection (previous_score : ℚ) : String :=
  if previous_score > 0 then
    "\n=== PREVIOUS ATTEMPT ===\n\nPrevious Score: " ++ toString previous_score ++
    "/10\n\n**CRITICAL: This rewrite MUST score HIGHER than " ++
    toString previous_score ++
    "**\nIf it does not improve, you are failing your job as an evaluator.\n"
  else ""

/-- Trailing task section of the evaluator prompt. -/
def evalTaskSection : String :=
  "\n=== YOUR TASK ===\n\n1. Score on 4 dimensions (0-10):\n" ++
  "   • Authenticity (40%): Does it sound human?\n" ++
  "   • Quality (30%): Is the writing good?\n" ++
  "   • Completeness (20%): Does it meet requirements?\n" ++
  "   • Depth (10%): Does it provide real value?\n\n" ++
  "2. Calculate overall score using the weights above\n\n" ++
  "3. Approve if Overall Score ≥ 7.0\n\n" ++
  "4. List:\n   • 3-5 specific STRENGTHS\n   • 2-3 specific WEAKNESSES\n" ++
  "   • ACTIONABLE feedback (be specific, not vague!)\n\n" ++
  "5. Return ContentEvaluation with all details\n\n" ++
  "Remember: Be critical but fair. Give scores that reflect real quality.\n"

/-- format_content_for_evaluation from ai_agents/evaluator_agent.py. In
Python previous_score is an optional parameter defaulting to 0; here it is
explicit, and call sites that omit it pass 0. -/
def format_content_for_evaluation (content : String) (research_data : ResearchData)
    (previous_score : ℚ) : String :=
  evalBasePrompt content research_data ++
    (prevAttemptSection previous_score ++ evalTaskSection)

/-! ## Draft-Evaluate Loop (main.py lines 63-100)

Each round makes two Stage Invoker calls (writer then evaluator). The
environment decides each outcome: an Except.error is a re-raised retry
failure (caught by the except branch of the round, which abandons the
round), Except.ok none is the run_with_retry None result (also abandoning
the round), and Except.ok (some _) is a usable final_output. -/

/-- Environment behaviour of one loop round: the outcome of the writer
invocation and, when the writer produced content, of the evaluator
invocation. -/
structure RoundBehavior where
  writeOutcome : Except RetryError (Option String)
  evalOutcome : Except RetryError (Option ContentEvaluation)

/-- One evaluator invocation as made by the loop: the draft it was asked to
judge and the previous_score argument supplied to
format_content_for_evaluation. -/
structure EvalCall where
  content : String
  previous_score : ℚ
deriving Repr, DecidableEq

/-- Loop state threaded across rounds: the retained best attempt
(best_content and best_evaluation are assigned together in main.py, so they
are coupled here), best_score, and the writer prompt for the next round. -/
structure LoopState where
  best : Option (String × ContentEvaluation)
  best_score : ℚ
  prompt : String

/-- Result of the loop: retained best attempt and score, number of rounds
that started executing, and the evaluator calls made (in order). -/
structure LoopResult where
  best : Option (String × ContentEvaluation)
  best_score : ℚ
  rounds_executed : Nat
  eval_calls : List EvalCall

/-- The for-loop of main.py lines 70-96 over the remaining rounds.
`n` counts rounds already executed and `calls` accumulates evaluator calls
in reverse. The evaluator prompt is built with previous_score 0 because
main.py line 77 calls format_content_for_evaluation with two arguments. -/
def runRounds (research_data : ResearchData) :
    List RoundBehavior → LoopState → Nat → List EvalCall → LoopResult
  | [], s, n, calls => ⟨s.best, s.best_score, n, calls.reverse⟩
  | b :: rest, s, n, calls =>
    match b.writeOutcome with
    | Except.error _ => runRounds research_data rest s (n + 1) calls
    | Except.ok none => runRounds research_data rest s (n + 1) calls
    | Except.ok (some master_content) =>
      let call : EvalCall := ⟨master_content, 0⟩
      match b.evalOutcome with
      | Except.error _ => runRounds research_data rest s (n + 1) (call :: calls)
      | Except.ok none => runRounds research_data rest s (n + 1) (call :: calls)
      | Except.ok (some evaluation) =>
        let s1 : LoopState :=
          if evaluation.overall_score > s.best_score then
            ⟨some (master_content, evaluation), evaluation.overall_score, s.prompt⟩
          else s
        if evaluation.approved then
          ⟨s1.best, s1.best_score, n + 1, (call :: calls).reverse⟩
        else
          runRounds research_data rest
            ⟨s1.best, s1.best_score,
              s.prompt ++ "\n\nPREVIOUS FEEDBACK:\n" ++ evaluation.specific_feedback ++
                "\n\nRewrite addressing all issues."⟩
            (n + 1) (call :: calls)

/-- The write-evaluate loop of run_workflow: best initialized to absent with
best_score 0, initial prompt from the research data. main.py runs rounds
1..3; the rounds list carries the environment behaviour of each round. -/
def draft_evaluate_loop (research_data : ResearchData) (rounds : List RoundBehavior) :
    LoopResult :=
  runRounds research_data rounds
    ⟨none, 0, format_research_for_master_content research_data⟩ 0 []

/-- The rounds that produced a successfully evaluated draft, truncated after
the first approved evaluation (rounds past an approved one never run). -/
def consideredRounds : List RoundBehavior → List (String × ContentEvaluation)
  | [] => []
  | b :: rest =>
    match b.writeOutcome with
    | Except.ok (some c) =>
      match b.evalOutcome with
      | Except.ok (some e) =>
        if e.approved then [(c, e)] else (c, e) :: consideredRounds rest
      | Except.ok none => consideredRounds rest
      | Except.error _ => consideredRounds rest
    | Except.ok none => consideredRounds rest
    | Except.error _ => consideredRounds rest

/-- All rounds that produced a successfully evaluated draft (no truncation
at approval). -/
def successRounds : List RoundBehavior → List (String × ContentEvaluation)
  | [] => []
  | b :: rest =>
    match b.writeOutcome with
    | Except.ok (some c) =>
      match b.evalOutcome with
      | Except.ok (some e) => (c, e) :: successRounds rest
      | Except.ok none => successRounds rest
      | Except.error _ => successRounds rest
    | Except.ok none => successRounds rest
    | Except.error _ => successRounds rest

/-- Modelled from the spec: the best-attempt selection rule of §4.2 step 5,
folded over the successfully evaluated rounds — compare the round score to
the best seen so far (initial best 0) and replace exactly when strictly
greater. -/
def specBestFold (acc : Option (String × ContentEvaluation) × ℚ) :
    List (String × ContentEvaluation) → Option (String × ContentEvaluation) × ℚ
  | [] => acc
  | (c, e) :: rest =>
    specBestFold
      (if e.overall_score > acc.2 then (some (c, e), e.overall_score) else acc) rest

/-- A round whose writer invocation re-raised is abandoned. -/
lemma runRounds_step_writeError (research : ResearchData) (u : RetryError)
    (bev : Except RetryError (Option ContentEvaluation)) (rest : List RoundBehavior)
    (s : LoopState) (n : Nat) (calls : List EvalCall) :
    runRounds research (⟨Except.error u, bev⟩ :: rest) s n calls
      = runRounds research rest s (n + 1) calls := rfl

/-- A round whose writer invocation returned None is abandoned. -/
lemma runRounds_step_writeNone (research : ResearchData)
    (bev : Except RetryError (Option ContentEvaluation)) (rest : List RoundBehavior)
    (s : LoopState) (n : Nat) (calls : List EvalCall) :
    runRounds research (⟨Except.ok none, bev⟩ :: rest) s n calls
      = runRounds research rest s (n + 1) calls := rfl

/-- A round whose evaluator invocation re-raised is abandoned after the
evaluator call is made. -/
lemma runRounds_step_evalError (research : ResearchData) (c : String) (u : RetryError)
    (rest : List RoundBehavior) (s : LoopState) (n : Nat) (calls : List EvalCall) :
    runRounds research (⟨Except.ok (some c), Except.error u⟩ :: rest) s n calls
      = runRounds research rest s (n + 1) (⟨c, 0⟩ :: calls) := rfl

/-- A round whose evaluator invocation returned None is abandoned after the
evaluator call is made. -/
lemma runRounds_step_evalNone (research : ResearchData) (c : String)
    (rest : List RoundBehavior) (s : LoopState) (n : Nat) (calls : List EvalCall) :
    runRounds research (⟨Except.ok (some c), Except.ok none⟩ :: rest) s n calls
      = runRounds research rest s (n + 1) (⟨c, 0⟩ :: calls) := rfl

/-- An unapproved round strictly above the best score replaces the best and
seeds the next prompt with its feedback. -/
lemma runRounds_step_improve (research : ResearchData) (c : String) (e : ContentEvaluation)
    (rest : List RoundBehavior) (s : LoopState) (n : Nat) (calls : List EvalCall)
    (happ : e.approved = false) (hgt : e.overall_score > s.best_score) :
    runRounds research (⟨Except.ok (some c), Except.ok (some e)⟩ :: rest) s n calls
      = runRounds research rest
          ⟨some (c, e), e.overall_score,
            s.prompt ++ "\n\nPREVIOUS FEEDBACK:\n" ++ e.specific_feedback ++
              "\n\nRewrite addressing all issues."⟩
          (n + 1) (⟨c, 0⟩ :: calls) := by
  simp [runRounds, happ, hgt]

/-- An unapproved round at or below the best score keeps the best and seeds
the next prompt with its feedback. -/
lemma runRounds_step_keep (research : ResearchData) (c : String) (e : ContentEvaluation)
    (rest : List RoundBehavior) (s : LoopState) (n : Nat) (calls : List EvalCall)
    (happ : e.approved = false) (hgt : ¬ e.overall_score > s.best_score) :
    runRounds research (⟨Except.ok (some c), Except.ok (some e)⟩ :: rest) s n calls
      = runRounds research rest
          ⟨s.best, s.best_score,
            s.prompt ++ "\n\nPREVIOUS FEEDBACK:\n" ++ e.specific_feedback ++
              "\n\nRewrite addressing all issues."⟩
          (n + 1) (⟨c, 0⟩ :: calls) := by
  simp [runRounds, happ, hgt]

/-- An approved round strictly above the best score stops the loop with its
own attempt retained. -/
lemma runRounds_step_approved_improve (research : ResearchData) (c : String)
    (e : ContentEvaluation) (rest : List RoundBehavior) (s : LoopState) (n : Nat)
    (calls : List EvalCall) (happ : e.approved = true)
    (hgt : e.overall_score > s.best_score) :
    runRounds research (⟨Except.ok (some c), Except.ok (some e)⟩ :: rest) s n calls
      = ⟨some (c, e), e.overall_score, n + 1, (⟨c, 0⟩ :: calls).reverse⟩ := by
  simp [runRounds, happ, hgt]

/-- An approved round at or below the best score stops the loop with the
earlier best retained. -/
lemma runRounds_step_approved_keep (research : ResearchData) (c : String)
    (e : ContentEvaluation) (rest : List RoundBehavior) (s : LoopState) (n : Nat)
    (calls : List EvalCall) (happ : e.approved = true)
    (hgt : ¬ e.overall_score > s.best_score) :
    runRounds research (⟨Except.ok (some c), Except.ok (some e)⟩ :: rest) s n calls
      = ⟨s.best, s.best_score, n + 1, (⟨c, 0⟩ :: calls).reverse⟩ := by
  simp [runRounds, happ, hgt]

/-- The loop refines the spec fold: its retained best attempt and best score
are the fold of the step-5 selection rule over the evaluated rounds. -/
lemma runRounds_fold (research : ResearchData) :
    ∀ (rounds : List RoundBehavior) (s : LoopState) (n : Nat) (calls : List EvalCall),
      ((runRounds research rounds s n calls).best,
        (runRounds research rounds s n calls).best_score)
        = specBestFold (s.best, s.best_score) (consideredRounds rounds) := by
  intro rounds
  induction rounds with
  | nil => intro s n calls; rfl
  | cons b rest ih =>
    intro s n calls
    obtain ⟨bw, bev⟩ := b
    cases bw with
    | error u => simpa [runRounds, consideredRounds] using ih s (n + 1) calls
    | ok ow =>
      cases ow with
      | none => simpa [runRounds, consideredRounds] using ih s (n + 1) calls
      | some c =>
        cases bev with
        | error u => simpa [runRounds, consideredRounds] using ih s (n + 1) _
        | ok oe =>
          cases oe with
          | none => simpa [runRounds, consideredRounds] using ih s (n + 1) _
          | some e =>
            by_cases happ : e.approved = true <;>
              by_cases hgt : e.overall_score > s.best_score
            · simp [runRounds, consideredRounds, happ, hgt, specBestFold]
            · simp [runRounds, consideredRounds, happ, hgt, specBestFold]
            · simpa [runRounds, consideredRounds, happ, hgt, specBestFold]
                using ih ⟨some (c, e), e.overall_score, _⟩ (n + 1) _
            · simpa [runRounds, consideredRounds, happ, hgt, specBestFold]
                using ih ⟨s.best, s.best_score, _⟩ (n + 1) _

/-- C1: the attempt the loop retains is exactly the one selected by the
spec rule of §4.2 step 5 — starting from no attempt and best score 0,
a successfully evaluated round replaces the retained best attempt if and
only if its overall score is strictly greater than the best score so far;
an equal or lower score never replaces it, regardless of recency. -/
theorem loop_best_follows_strict_improvement (research : ResearchData)
    (rounds : List RoundBehavior) :
    (draft_evaluate_loop research rounds).best
        = (specBestFold (none, 0) (consideredRounds rounds)).1 ∧
    (draft_evaluate_loop research rounds).best_score
        = (specBestFold (none, 0) (consideredRounds rounds)).2 := by
  have h := runRounds_fold research rounds
    ⟨none, 0, format_research_for_master_content research⟩ 0 []
  exact ⟨congrArg Prod.fst h, congrArg Prod.snd h⟩

/-- If every evaluated round before the approving one was not approved and
scored below 7, and the approving round scores at least 7, the loop stops at
the approving round and returns its attempt. -/
lemma runRounds_approval (research : ResearchData) (c : String) (e : ContentEvaluation)
    (happ : e.approved = true) (hscore : 7 ≤ e.overall_score) :
    ∀ (pre : List RoundBehavior) (rest : List RoundBehavior) (s : LoopState)
      (n : Nat) (calls : List EvalCall),
      (∀ p ∈ successRounds pre, p.2.approved = false ∧ p.2.overall_score < 7) →
      s.best_score < 7 →
      (runRounds research (pre ++ ⟨Except.ok (some c), Except.ok (some e)⟩ :: rest)
          s n calls).rounds_executed = n + pre.length + 1 ∧
      (runRounds research (pre ++ ⟨Except.ok (some c), Except.ok (some e)⟩ :: rest)
          s n calls).best = some (c, e) := by
  intro pre
  induction pre with
  | nil =>
    intro rest s n calls hpre hbs
    have hgt : e.overall_score > s.best_score := lt_of_lt_of_le hbs hscore
    simp [runRounds, happ, hgt]
  | cons b pre ih =>
    intro rest s n calls hpre hbs
    obtain ⟨bw, bev⟩ := b
    rw [List.cons_append]
    cases bw with
    | error u =>
      rw [runRounds_step_writeError]
      have h := ih rest s (n + 1) calls
        (fun p hp => hpre p (by simpa [successRounds] using hp)) hbs
      refine ⟨?_, h.2⟩
      rw [h.1]
      simp only [List.length_cons]
      omega
    | ok ow =>
      cases ow with
      | none =>
        rw [runRounds_step_writeNone]
        have h := ih rest s (n + 1) calls
          (fun p hp => hpre p (by simpa [successRounds] using hp)) hbs
        refine ⟨?_, h.2⟩
        rw [h.1]
        simp only [List.length_cons]
        omega
      | some c' =>
        cases bev with
        | error u =>
          rw [runRounds_step_evalError]
          have h := ih rest s (n + 1) (⟨c', 0⟩ :: calls)
            (fun p hp => hpre p (by simpa [successRounds] using hp)) hbs
          refine ⟨?_, h.2⟩
          rw [h.1]
          simp only [List.length_cons]
          omega
        | ok oe =>
          cases oe with
          | none =>
            rw [runRounds_step_evalNone]
            have h := ih rest s (n + 1) (⟨c', 0⟩ :: calls)
              (fun p hp => hpre p (by simpa [successRounds] using hp)) hbs
            refine ⟨?_, h.2⟩
            rw [h.1]
            simp only [List.length_cons]
            omega
          | some e' =>
            have hhd := hpre (c', e') (by simp [successRounds])
            have htl : ∀ p ∈ successRounds pre, p.2.approved = false ∧ p.2.overall_score < 7 :=
              fun p hp => hpre p (by simp [successRounds, hp])
            by_cases hgt : e'.overall_score > s.best_score
            · rw [runRounds_step_improve research c' e' _ s n calls hhd.1 hgt]
              have h := ih rest ⟨some (c', e'), e'.overall_score,
                s.prompt ++ "\n\nPREVIOUS FEEDBACK:\n" ++ e'.specific_feedback ++
                  "\n\nRewrite addressing all issues."⟩ (n + 1) (⟨c', 0⟩ :: calls) htl hhd.2
              refine ⟨?_, h.2⟩
              rw [h.1]
              simp only [List.length_cons]
              omega
            · rw [runRounds_step_keep research c' e' _ s n calls hhd.1 hgt]
              have h := ih rest ⟨s.best, s.best_score,
                s.prompt ++ "\n\nPREVIOUS FEEDBACK:\n" ++ e'.specific_feedback ++
                  "\n\nRewrite addressing all issues."⟩ (n + 1) (⟨c', 0⟩ :: calls) htl hbs
              refine ⟨?_, h.2⟩
              rw [h.1]
              simp only [List.length_cons]
              omega

/-- C2: when a round is approved (approval meaning its overall score meets
the 7.0 threshold, with every earlier evaluated round unapproved and hence
below 7), the loop terminates at that round — no later round executes, even
if rounds remain — and the returned best attempt is the approving round's
attempt. For pre = [] this is the first-round case: exactly one round
executes and its attempt is returned. -/
theorem loop_stops_at_first_approval (research : ResearchData)
    (pre rest : List RoundBehavior) (c : String) (e : ContentEvaluation)
    (hpre : ∀ p ∈ successRounds pre, p.2.approved = false ∧ p.2.overall_score < 7)
    (happ : e.approved = true) (hscore : 7 ≤ e.overall_score) :
    (draft_evaluate_loop research
        (pre ++ ⟨Except.ok (some c), Except.ok (some e)⟩ :: rest)).rounds_executed
      = pre.length + 1 ∧
    (draft_evaluate_loop research
        (pre ++ ⟨Except.ok (some c), Except.ok (some e)⟩ :: rest)).best
      = some (c, e) := by
  have h := runRounds_approval research c e happ hscore pre rest
    ⟨none, 0, format_research_for_master_content research⟩ 0 [] hpre (by norm_num)
  simpa [draft_evaluate_loop] using h

/-- Concrete research data used in witnesses and counterexamples. -/
def cexResearch : ResearchData :=
  ⟨"AI productivity tools", ["fact"], [], [], [], [], "a summary", ["src"]⟩

/-- A round whose writer invocation re-raises after its retries. -/
def failRound : RoundBehavior :=
  ⟨Except.error RetryError.raised, Except.error RetryError.raised⟩

/-- An approved evaluation scoring 8.5. -/
def wEval85 : ContentEvaluation :=
  ⟨9, 8, 8, 8, (17 : ℚ) / 2, true, false, ["clear"], [], "great"⟩

/-- Witness for C2: a first round approved at 8.5 with a second round
available — exactly one round executes and its attempt is returned. -/
theorem loop_stops_at_first_approval_witness :
    (draft_evaluate_loop cexResearch
        ([] ++ (⟨Except.ok (some "the draft"), Except.ok (some wEval85)⟩ : RoundBehavior)
          :: [failRound])).rounds_executed = List.length ([] : List RoundBehavior) + 1 ∧
    (draft_evaluate_loop cexResearch
        ([] ++ (⟨Except.ok (some "the draft"), Except.ok (some wEval85)⟩ : RoundBehavior)
          :: [failRound])).best = some ("the draft", wEval85) :=
  loop_stops_at_first_approval cexResearch [] [failRound] "the draft" wEval85
    (by intro p hp; simp [successRounds] at hp) rfl (by norm_num [wEval85])

/-- A fold whose accumulator already holds an attempt never drops it. -/
lemma specBestFold_some :
    ∀ (l : List (String × ContentEvaluation))
      (acc : Option (String × ContentEvaluation) × ℚ) (x : String × ContentEvaluation),
      acc.1 = some x → ∃ y, (specBestFold acc l).1 = some y := by
  intro l
  induction l with
  | nil => intro acc x h; exact ⟨x, h⟩
  | cons p rest ih =>
    intro acc x h
    obtain ⟨c, e⟩ := p
    by_cases hgt : e.overall_score > acc.2
    · exact ih (some (c, e), e.overall_score) (c, e) (by simp [specBestFold, hgt])
        |>.imp fun y hy => by simpa [specBestFold, hgt] using hy
    · exact (ih acc x h).imp fun y hy => by simpa [specBestFold, hgt] using hy

/-- Starting from no attempt and score 0, the fold yields no attempt exactly
when every evaluated round scored at most 0. -/
lemma specBestFold_none_iff :
    ∀ l : List (String × ContentEvaluation),
      ((specBestFold (none, 0) l).1 = none ↔ ∀ p ∈ l, p.2.overall_score ≤ 0) := by
  intro l
  induction l with
  | nil => simp [specBestFold]
  | cons p rest ih =>
    obtain ⟨c, e⟩ := p
    by_cases hgt : e.overall_score > 0
    · constructor
      · intro hnone
        obtain ⟨y, hy⟩ := specBestFold_some rest (some (c, e), e.overall_score) (c, e) rfl
        rw [show specBestFold (none, 0) ((c, e) :: rest)
            = specBestFold (some (c, e), e.overall_score) rest
          from by simp [specBestFold, hgt]] at hnone
        rw [hnone] at hy
        exact Option.noConfusion hy
      · intro hall
        exact absurd (hall (c, e) (List.mem_cons_self _ _)) (not_le.mpr hgt)
    · have hle : e.overall_score ≤ 0 := not_lt.mp hgt
      simp [specBestFold, hgt, List.forall_mem_cons, hle, ih]

/-- C3 (amended): the loop returns an absent best attempt if and only if
every round that produced a successfully evaluated draft (up to the first
approved one) had overall score at most 0 — in particular, when every round
fails to produce an evaluated draft, but also when evaluated drafts score 0. -/
theorem loop_absent_iff_no_positive_round (research : ResearchData)
    (rounds : List RoundBehavior) :
    (draft_evaluate_loop research rounds).best = none ↔
      ∀ p ∈ consideredRounds rounds, p.2.overall_score ≤ 0 := by
  have h := runRounds_fold research rounds
    ⟨none, 0, format_research_for_master_content research⟩ 0 []
  have hb : (draft_evaluate_loop research rounds).best
      = (specBestFold (none, 0) (consideredRounds rounds)).1 := congrArg Prod.fst h
  rw [draft_evaluate_loop] at hb
  rw [draft_evaluate_loop, hb, specBestFold_none_iff]

/-- An evaluation that succeeds with every score 0 (unapproved). -/
def cexEvalZero : ContentEvaluation :=
  ⟨0, 0, 0, 0, 0, false, true, [], [], "poor"⟩

/-- Counterexample to C3 as stated: one round produces a draft whose
evaluation succeeds (with overall score 0), yet the loop returns an absent
result, because a score of 0 is not strictly greater than the initial best
of 0. -/
theorem loop_absent_despite_evaluated_draft :
    (successRounds
        [⟨Except.ok (some "a draft"), Except.ok (some cexEvalZero)⟩, failRound, failRound]).length
      = 1 ∧
    (draft_evaluate_loop cexResearch
        [⟨Except.ok (some "a draft"), Except.ok (some cexEvalZero)⟩, failRound,
          failRound]).best.isNone = true := by
  constructor
  · rfl
  · rfl

/-- Every evaluator call the loop records carries previous_score 0, because
main.py line 77 builds the evaluation prompt without the previous_score
argument. -/
lemma runRounds_calls_zero (research : ResearchData) :
    ∀ (rounds : List RoundBehavior) (s : LoopState) (n : Nat) (calls : List EvalCall),
      (∀ x ∈ calls, x.previous_score = 0) →
      ∀ x ∈ (runRounds research rounds s n calls).eval_calls, x.previous_score = 0 := by
  intro rounds
  induction rounds with
  | nil =>
    intro s n calls h x hx
    exact h x (by simpa [runRounds] using hx)
  | cons b rest ih =>
    intro s n calls h x hx
    obtain ⟨bw, bev⟩ := b
    cases bw with
    | error u =>
      exact ih s (n + 1) calls h x (by simpa [runRounds_step_writeError] using hx)
    | ok ow =>
      cases ow with
      | none =>
        exact ih s (n + 1) calls h x (by simpa [runRounds_step_writeNone] using hx)
      | some c =>
        have h' : ∀ y ∈ (⟨c, 0⟩ : EvalCall) :: calls, y.previous_score = 0 := by
          intro y hy
          rcases List.mem_cons.mp hy with hy | hy
          · rw [hy]
          · exact h y hy
        cases bev with
        | error u =>
          exact ih s (n + 1) (⟨c, 0⟩ :: calls) h' x
            (by simpa [runRounds_step_evalError] using hx)
        | ok oe =>
          cases oe with
          | none =>
            exact ih s (n + 1) (⟨c, 0⟩ :: calls) h' x
              (by simpa [runRounds_step_evalNone] using hx)
          | some e =>
            by_cases happ : e.approved = true
            · by_cases hgt : e.overall_score > s.best_score
              · rw [runRounds_step_approved_improve research c e rest s n calls happ hgt] at hx
                exact h' x (List.mem_cons.mpr (Or.symm (by simpa using hx)))
              · rw [runRounds_step_approved_keep research c e rest s n calls happ hgt] at hx
                exact h' x (List.mem_cons.mpr (Or.symm (by simpa using hx)))
            · have happ' : e.approved = false := by
                cases he : e.approved
                · rfl
                · exact absurd he happ
              by_cases hgt : e.overall_score > s.best_score
              · rw [runRounds_step_improve research c e rest s n calls happ' hgt] at hx
                exact ih _ (n + 1) (⟨c, 0⟩ :: calls) h' x hx
              · rw [runRounds_step_keep research c e rest s n calls happ' hgt] at hx
                exact ih _ (n + 1) (⟨c, 0⟩ :: calls) h' x hx

/-- C5 fails on the code: for every run of the loop — in particular in every
round after a best score has been established — the evaluator stage input is
built with previous_score 0 (main.py line 77 omits the argument), so the
previous-score section of the evaluation prompt is empty and the prompt is
just the base and task sections. -/
theorem eval_stage_never_given_previous_score (research : ResearchData)
    (rounds : List RoundBehavior) (x : EvalCall)
    (hx : x ∈ (draft_evaluate_loop research rounds).eval_calls) :
    x.previous_score = 0 ∧ prevAttemptSection x.previous_score = "" ∧
    format_content_for_evaluation x.content research x.previous_score
      = evalBasePrompt x.content research ++ ("" ++ evalTaskSection) := by
  have h0 : x.previous_score = 0 :=
    runRounds_calls_zero research rounds
      ⟨none, 0, format_research_for_master_content research⟩ 0 []
      (by intro y hy; exact absurd hy (List.not_mem_nil y)) x hx
  have hsec : prevAttemptSection x.previous_score = "" := by
    rw [h0]
    simp [prevAttemptSection]
  refine ⟨h0, hsec, ?_⟩
  rw [format_content_for_evaluation, hsec]

/-- A successful but unapproved evaluation scoring 6.0. -/
def wEval60 : ContentEvaluation :=
  ⟨6, 6, 6, 6, 6, false, true, [], ["vague"], "name the exact tools"⟩

/-- Witness for C5: in a run whose first round scored 6.0 (a best score was
established), the second round's evaluator call still carries
previous_score 0 and an empty previous-score section. -/
theorem eval_stage_never_given_previous_score_witness :
    (⟨"second draft", 0⟩ : EvalCall).previous_score = 0 ∧
    prevAttemptSection (⟨"second draft", 0⟩ : EvalCall).previous_score = "" ∧
    format_content_for_evaluation (⟨"second draft", 0⟩ : EvalCall).content cexResearch
        (⟨"second draft", 0⟩ : EvalCall).previous_score
      = evalBasePrompt (⟨"second draft", 0⟩ : EvalCall).content cexResearch
          ++ ("" ++ evalTaskSection) :=
  eval_stage_never_given_previous_score cexResearch
    [⟨Except.ok (some "first draft"), Except.ok (some wEval60)⟩,
      ⟨Except.ok (some "second draft"), Except.ok (some wEval60)⟩, failRound]
    ⟨"second draft", 0⟩ (by decide)

/-- The weighted overall score stated by the evaluator contract:
0.4·authenticity + 0.3·quality + 0.2·completeness + 0.1·depth. -/
def evalWeightedSum (e : ContentEvaluation) : ℚ :=
  0.4 * e.authenticity_score + 0.3 * e.quality_score +
    0.2 * e.completeness_score + 0.1 * e.depth_score

/-- Any attempt the loop retains comes from a successfully evaluated round
(or was already retained when the loop started). -/
lemma runRounds_best_mem (research : ResearchData) :
    ∀ (rounds : List RoundBehavior) (s : LoopState) (n : Nat) (calls : List EvalCall)
      (p : String × ContentEvaluation),
      (runRounds research rounds s n calls).best = some p →
      p ∈ successRounds rounds ∨ s.best = some p := by
  intro rounds
  induction rounds with
  | nil =>
    intro s n calls p h
    exact Or.inr (by simpa [runRounds] using h)
  | cons b rest ih =>
    intro s n calls p h
    obtain ⟨bw, bev⟩ := b
    cases bw with
    | error u =>
      rw [runRounds_step_writeError] at h
      rcases ih s (n + 1) calls p h with h' | h'
      · exact Or.inl (by simpa [successRounds] using h')
      · exact Or.inr h'
    | ok ow =>
      cases ow with
      | none =>
        rw [runRounds_step_writeNone] at h
        rcases ih s (n + 1) calls p h with h' | h'
        · exact Or.inl (by simpa [successRounds] using h')
        · exact Or.inr h'
      | some c =>
        cases bev with
        | error u =>
          rw [runRounds_step_evalError] at h
          rcases ih s (n + 1) _ p h with h' | h'
          · exact Or.inl (by simpa [successRounds] using h')
          · exact Or.inr h'
        | ok oe =>
          cases oe with
          | none =>
            rw [runRounds_step_evalNone] at h
            rcases ih s (n + 1) _ p h with h' | h'
            · exact Or.inl (by simpa [successRounds] using h')
            · exact Or.inr h'
          | some e =>
            by_cases happ : e.approved = true
            · by_cases hgt : e.overall_score > s.best_score
              · rw [runRounds_step_approved_improve research c e rest s n calls happ hgt] at h
                have : p = (c, e) := by simpa using h.symm
                exact Or.inl (by simp [successRounds, this])
              · rw [runRounds_step_approved_keep research c e rest s n calls happ hgt] at h
                exact Or.inr (by simpa using h)
            · have happ' : e.approved = false := by
                cases he : e.approved
                · rfl
                · exact absurd he happ
              by_cases hgt : e.overall_score > s.best_score
              · rw [runRounds_step_improve research c e rest s n calls happ' hgt] at h
                rcases ih _ (n + 1) _ p h with h' | h'
                · exact Or.inl (by simp [successRounds, h'])
                · have : p = (c, e) := by simpa using h'.symm
                  exact Or.inl (by simp [successRounds, this])
              · rw [runRounds_step_keep research c e rest s n calls happ' hgt] at h
                rcases ih _ (n + 1) _ p h with h' | h'
                · exact Or.inl (by simp [successRounds, h'])
                · exact Or.inr h'

/-- C9 (amended): the loop itself never recomputes or checks the weighted
sum; the invariant holds for the evaluation of the accepted best attempt
exactly when the evaluator delivers it — if every successfully evaluated
round satisfies |overall − weighted sum| ≤ 0.05, so does the evaluation the
loop accepts as best. -/
theorem accepted_best_weight_invariant (research : ResearchData)
    (rounds : List RoundBehavior)
    (hall : ∀ p ∈ successRounds rounds,
      |p.2.overall_score - evalWeightedSum p.2| ≤ (0.05 : ℚ))
    (c : String) (e : ContentEvaluation)
    (hbest : (draft_evaluate_loop research rounds).best = some (c, e)) :
    |e.overall_score - evalWeightedSum e| ≤ (0.05 : ℚ) := by
  rcases runRounds_best_mem research rounds
      ⟨none, 0, format_research_for_master_content research⟩ 0 [] (c, e) hbest with h | h
  · exact hall (c, e) h
  · exact absurd h (by simp)

/-- An internally consistent approved evaluation (weighted sum 8.3). -/
def wEval83 : ContentEvaluation :=
  ⟨9, 8, 8, 7, (83 : ℚ) / 10, true, false, ["specific"], [], "ship it"⟩

/-- Witness for C9 (amended): a run whose single evaluation matches its
weighted sum exactly yields a best attempt still matching it. -/
theorem accepted_best_weight_invariant_witness :
    |wEval83.overall_score - evalWeightedSum wEval83| ≤ (0.05 : ℚ) :=
  accepted_best_weight_invariant cexResearch
    [⟨Except.ok (some "good draft"), Except.ok (some wEval83)⟩]
    (by
      intro p hp
      simp [successRounds] at hp
      rw [hp]
      norm_num [wEval83, evalWeightedSum])
    "good draft" wEval83
    (by
      rw [draft_evaluate_loop, runRounds_step_approved_improve cexResearch "good draft"
        wEval83 [] ⟨none, 0, format_research_for_master_content cexResearch⟩ 0 [] rfl
        (by norm_num [wEval83])])

/-- An evaluation whose stored overall score (9) is far from the weighted
sum of its sub-scores (0). -/
def cexEvalBad : ContentEvaluation :=
  ⟨0, 0, 0, 0, 9, false, true, [], [], "inconsistent"⟩

/-- Counterexample to C9 as stated: the loop accepts as best an evaluation
whose overall score differs from the weighted sum of its sub-scores by 9,
far beyond the 0.05 tolerance — nothing in the orchestrator checks the
invariant. -/
theorem loop_accepts_invariant_violating_eval :
    (draft_evaluate_loop cexResearch
        [⟨Except.ok (some "x draft"), Except.ok (some cexEvalBad)⟩]).best
      = some ("x draft", cexEvalBad) ∧
    ¬ |cexEvalBad.overall_score - evalWeightedSum cexEvalBad| ≤ (0.05 : ℚ) := by
  constructor
  · rfl
  · norm_num [cexEvalBad, evalWeightedSum]

/-! ## Pipeline Coordinator: run_workflow (main.py lines 46-156)

The environment fixes the outcome of each single-shot stage. For research,
every failure mode (retry raise, None result, JSON parse error) collapses to
an absent result, exactly as the try/except of lines 53-61 does. For the
social, storage and scheduling stages, a raised error and a None result are
likewise both absent (the try/except bodies of lines 106-147 treat them the
same way). -/

/-- The three single-shot stages the coordinator invokes directly after the
write-evaluate loop, plus research. -/
inductive StageName where
  | research
  | social
  | storage
  | schedule
deriving Repr, DecidableEq

/-- The dict run_workflow returns: the social-failure path (line 114 and
117) builds a partial dict whose social_media is None and which has no
storage or schedule entries; the full path (lines 149-156) carries all six
entries. -/
inductive RunRecord where
  | partialRecord (topic : String) (master_content : String)
      (evaluation : ContentEvaluation)
  | fullRecord (topic : String) (master_content : String)
      (evaluation : ContentEvaluation) (social_media : SocialMediaContent)
      (storage : Option StorageResult) (schedule : Option SchedulingResult)
deriving Repr, DecidableEq

/-- Environment behaviour of one whole run. -/
structure WorkflowEnv where
  research : Option ResearchData
  round1 : RoundBehavior
  round2 : RoundBehavior
  round3 : RoundBehavior
  social : Option SocialMediaContent
  storage : Option StorageResult
  schedule : Option SchedulingResult

/-- Lines 124-132: the retained storage_data is the storage stage output if
it exists and reports success, else None. -/
def effectiveStorage : Option StorageResult → Option StorageResult
  | some d => if d.success then some d else none
  | none => none

/-- Lines 138-147: the retained schedule_data, by the same rule. -/
def effectiveSchedule : Option SchedulingResult → Option SchedulingResult
  | some d => if d.success then some d else none
  | none => none

/-- run_workflow from main.py: the returned record (None on the fatal
paths), paired with the list of single-shot stages the coordinator invoked.
The check at line 98 is Python truthiness, so an empty best_content string
aborts like an absent one. -/
def run_workflow (topic : String) (env : WorkflowEnv) :
    Option RunRecord × List StageName :=
  match env.research with
  | none => (none, [StageName.research])
  | some research_data =>
    match (draft_evaluate_loop research_data [env.round1, env.round2, env.round3]).best with
    | none => (none, [StageName.research])
    | some (best_content, best_evaluation) =>
      if best_content = "" then (none, [StageName.research])
      else
        match env.social with
        | none =>
          (some (RunRecord.partialRecord topic best_content best_evaluation),
            [StageName.research, StageName.social])
        | some social_content =>
          (some (RunRecord.fullRecord topic best_content best_evaluation social_content
              (effectiveStorage env.storage) (effectiveSchedule env.schedule)),
            [StageName.research, StageName.social, StageName.storage, StageName.schedule])

/-- The best attempt the loop inside run_workflow would retain for this
environment, absent when research already failed. -/
def bestDraft (env : WorkflowEnv) : Option (String × ContentEvaluation) :=
  match env.research with
  | none => none
  | some research_data =>
    (draft_evaluate_loop research_data [env.round1, env.round2, env.round3]).best

/-- Whether the loop produced a usable (nonempty) best draft. -/
def loopProducedDraft (env : WorkflowEnv) : Bool :=
  match bestDraft env with
  | some (c, _) => decide (¬ c = "")
  | none => false

/-- C6 (amended): the entry point returns a run record if and only if
research succeeded and the write-evaluate loop retained a nonempty best
draft; failures of the social, storage or scheduling stages never make the
result absent, while a research failure or loop exhaustion always does. -/
theorem run_workflow_record_iff (topic : String) (env : WorkflowEnv) :
    ((run_workflow topic env).1).isSome = loopProducedDraft env := by
  cases hres : env.research with
  | none => simp [run_workflow, loopProducedDraft, bestDraft, hres]
  | some research_data =>
    cases hbest : (draft_evaluate_loop research_data
        [env.round1, env.round2, env.round3]).best with
    | none => simp [run_workflow, loopProducedDraft, bestDraft, hres, hbest]
    | some p =>
      obtain ⟨c, e⟩ := p
      by_cases hc : c = ""
      · simp [run_workflow, loopProducedDraft, bestDraft, hres, hbest, hc]
      · cases hsoc : env.social <;>
          simp [run_workflow, loopProducedDraft, bestDraft, hres, hbest, hc, hsoc]

/-- Environment for the C6 counterexample: research succeeds, every loop
round fails at the writer stage, downstream stages would succeed. -/
def cexEnv6 : WorkflowEnv :=
  ⟨some cexResearch, failRound, failRound, failRound, none, none, none⟩

/-- Counterexample to C6 as stated: research succeeded, the loop was
exhausted (a failure after research), yet run_workflow returns an absent
result instead of a run record. -/
theorem run_without_record_after_research_success :
    cexEnv6.research.isSome = true ∧
    ((run_workflow "AI productivity tools" cexEnv6).1).isNone = true := by
  constructor
  · rfl
  · rfl

/-- C7: when the loop produced a usable best draft and the social stage
fails, run_workflow returns the partial record carrying the topic, the best
draft and its evaluation, and neither the storage nor the scheduling stage
is ever invoked. -/
theorem social_failure_skips_storage_and_schedule (topic : String) (env : WorkflowEnv)
    (c : String) (e : ContentEvaluation) (hbd : bestDraft env = some (c, e))
    (hc : ¬ c = "") (hsoc : env.social = none) :
    (run_workflow topic env).1 = some (RunRecord.partialRecord topic c e) ∧
    StageName.storage ∉ (run_workflow topic env).2 ∧
    StageName.schedule ∉ (run_workflow topic env).2 := by
  cases hres : env.research with
  | none =>
    simp only [bestDraft, hres] at hbd
    exact Option.noConfusion hbd
  | some research_data =>
    simp only [bestDraft, hres] at hbd
    simp [run_workflow, hres, hbd, hc, hsoc]

/-- An internally consistent approved evaluation with integer scores. -/
def wEval8 : ContentEvaluation :=
  ⟨8, 8, 8, 8, 8, true, false, ["clear"], [], "approved"⟩

/-- Environment for the C7 witness: an approved first round, social stage
fails. -/
def wEnv7 : WorkflowEnv :=
  ⟨some cexResearch, ⟨Except.ok (some "the draft"), Except.ok (some wEval8)⟩,
    failRound, failRound, none, some ⟨"link", [], true, "ok"⟩,
    some ⟨[], true, "ok"⟩⟩

/-- Witness for C7. -/
theorem social_failure_skips_storage_and_schedule_witness :
    (run_workflow "AI productivity tools" wEnv7).1
      = some (RunRecord.partialRecord "AI productivity tools" "the draft" wEval8) ∧
    StageName.storage ∉ (run_workflow "AI productivity tools" wEnv7).2 ∧
    StageName.schedule ∉ (run_workflow "AI productivity tools" wEnv7).2 :=
  social_failure_skips_storage_and_schedule "AI productivity tools" wEnv7
    "the draft" wEval8 (by rfl) (by decide) rfl

/-- C8: when the loop produced a usable best draft, the social stage
succeeded and the storage stage failed (absent output or success = false),
the scheduling stage is still invoked, the record is returned with an
absent storage entry, and the schedule entry is whatever the scheduling
stage independently produced. -/
theorem persist_failure_still_schedules (topic : String) (env : WorkflowEnv)
    (c : String) (e : ContentEvaluation) (s : SocialMediaContent)
    (hbd : bestDraft env = some (c, e)) (hc : ¬ c = "")
    (hsoc : env.social = some s) (hst : effectiveStorage env.storage = none) :
    (run_workflow topic env).1
      = some (RunRecord.fullRecord topic c e s none (effectiveSchedule env.schedule)) ∧
    StageName.schedule ∈ (run_workflow topic env).2 := by
  cases hres : env.research with
  | none =>
    simp only [bestDraft, hres] at hbd
    exact Option.noConfusion hbd
  | some research_data =>
    simp only [bestDraft, hres] at hbd
    simp [run_workflow, hres, hbd, hc, hsoc, hst]

/-- The social bundle used in the C8 witness. -/
def wSocial : SocialMediaContent :=
  ⟨"h", "s", "c", "h", "b", "c", [], "h", "b", "c", []⟩

/-- Environment for the C8 witness: an approved first round, social stage
succeeds, storage reports success = false, scheduling succeeds. -/
def wEnv8 : WorkflowEnv :=
  ⟨some cexResearch, ⟨Except.ok (some "the draft"), Except.ok (some wEval8)⟩,
    failRound, failRound, some wSocial,
    some ⟨"link", [], false, "notion down"⟩,
    some ⟨[⟨"tiktok", "t", "9am", "cal"⟩], true, "ok"⟩⟩

/-- Witness for C8: storage failed, yet scheduling ran and its successful
result is recorded. -/
theorem persist_failure_still_schedules_witness :
    (run_workflow "AI productivity tools" wEnv8).1
      = some (RunRecord.fullRecord "AI productivity tools" "the draft" wEval8
          wSocial none (effectiveSchedule wEnv8.schedule)) ∧
    StageName.schedule ∈ (run_workflow "AI productivity tools" wEnv8).2 :=
  persist_failure_still_schedules "AI productivity tools" wEnv8
    "the draft" wEval8 wSocial (by rfl) (by decide) rfl (by rfl)

end ContentWorkflow
